import Mathlib

/-!
Shallow embedding of the XReflection repository (hainuo-wang/XReflection):
`src/xreflection/models/base_model.py` and `src/xreflection/data/__init__.py`.

Python dicts are modelled as association lists (`List (key × value)`),
preserving Python's insertion-order semantics: assignment to an existing key
updates the value in place, assignment to a fresh key appends at the end.
Metric values (Python floats produced by `calculate_metric`) are modelled
as rationals `ℚ`.
-/

namespace XReflection

/-- The metric accumulator `self.current_val_metrics`:
a dict from dataset name to a dict from metric name to the list of
accumulated metric values. -/
abbrev CurrentValMetrics := List (String × List (String × List ℚ))

/-! ### Association-list primitives mirroring Python dict semantics -/

/-- Python dict lookup `d[k]` as an `Option`, over an association list. -/
def alistFind? {β : Type} : List (String × β) → String → Option β
  | [], _ => none
  | (k, v) :: rest, n => if k = n then some v else alistFind? rest n

/-! ### `BaseModel.on_validation_epoch_end` (base_model.py lines 294-334) -/

/-- `sum(values) / len(values)`: arithmetic mean of the accumulated values of
one metric, as computed at line 304 of `base_model.py`. -/
def avgValue (values : List ℚ) : ℚ := values.sum / (values.length : ℚ)

/-- Per-dataset averages reported at epoch end: for every dataset, for every
metric, the arithmetic mean of its accumulated value list
(`base_model.py` lines 299-310). -/
def datasetAverages (m : CurrentValMetrics) : List (String × List (String × ℚ)) :=
  m.map (fun p => (p.1, p.2.map (fun q => (q.1, avgValue q.2))))

/-- The running entries of `total_average_metrics` before the final division:
metric name ↦ (`val` running sum, `counts` running sample count). -/
abbrev Totals := List (String × ℚ × Nat)

/-- One update of `total_average_metrics` for metric `n` with a dataset's
`sum(values)` and `len(values)` (`base_model.py` lines 311-318): if the metric
name is absent a fresh entry `{val: sum, counts: len}` is appended, otherwise
`val` and `counts` are incremented in place. -/
def addTotal : Totals → String → ℚ → Nat → Totals
  | [], n, s, c => [(n, s, c)]
  | (k, v, cnt) :: rest, n, s, c =>
    if k = n then (k, v + s, cnt + c) :: rest
    else (k, v, cnt) :: addTotal rest n s c

/-- Folding one dataset's metric dict into `total_average_metrics`
(the inner loop at `base_model.py` lines 302-318). -/
def accumDataset (acc : Totals) (ms : List (String × List ℚ)) : Totals :=
  ms.foldl (fun a q => addTotal a q.1 q.2.sum q.2.length) acc

/-- The full `total_average_metrics` accumulation over all datasets
(the outer loop at `base_model.py` lines 299-318), starting from `{}`. -/
def epochTotals (m : CurrentValMetrics) : Totals :=
  m.foldl (fun a p => accumDataset a p.2) []

/-- The reported global averages: `{k: v['val'] / v['counts']}`
(`base_model.py` lines 321-323). -/
def globalAverages (m : CurrentValMetrics) : List (String × ℚ) :=
  (epochTotals m).map (fun p => (p.1, p.2.1 / (p.2.2 : ℚ)))

/-! Specification-side quantities used to characterise `epochTotals`. -/

/-- Sum of `sum(values)` for metric `n` inside one dataset's metric dict. -/
def dsSumFor (ms : List (String × List ℚ)) (n : String) : ℚ :=
  (ms.map (fun q => if q.1 = n then q.2.sum else 0)).sum

/-- Count of samples for metric `n` inside one dataset's metric dict. -/
def dsCountFor (ms : List (String × List ℚ)) (n : String) : Nat :=
  (ms.map (fun q => if q.1 = n then q.2.length else 0)).sum

/-- Sum of all accumulated values for metric `n` across all datasets. -/
def metricTotal (m : CurrentValMetrics) (n : String) : ℚ :=
  (m.map (fun p => dsSumFor p.2 n)).sum

/-- Total count of accumulated samples for metric `n` across all datasets. -/
def metricCount (m : CurrentValMetrics) (n : String) : Nat :=
  (m.map (fun p => dsCountFor p.2 n)).sum

/-- Value component of a `Totals` entry, `0` when the metric is absent. -/
def totalVal (acc : Totals) (n : String) : ℚ :=
  match alistFind? acc n with
  | some p => p.1
  | none => 0

/-- Count component of a `Totals` entry, `0` when the metric is absent. -/
def totalCnt (acc : Totals) (n : String) : Nat :=
  match alistFind? acc n with
  | some p => p.2
  | none => 0

theorem totalVal_cons (k : String) (p : ℚ × Nat) (tl : Totals) (n : String) :
    totalVal ((k, p) :: tl) n = if k = n then p.1 else totalVal tl n := by
  simp only [totalVal, alistFind?]
  by_cases h : k = n <;> simp [h]

theorem totalCnt_cons (k : String) (p : ℚ × Nat) (tl : Totals) (n : String) :
    totalCnt ((k, p) :: tl) n = if k = n then p.2 else totalCnt tl n := by
  simp only [totalCnt, alistFind?]
  by_cases h : k = n <;> simp [h]

theorem totalVal_addTotal (acc : Totals) (n n' : String) (s : ℚ) (c : Nat) :
    totalVal (addTotal acc n s c) n' =
      totalVal acc n' + (if n = n' then s else 0) := by
  induction acc with
  | nil =>
    simp only [addTotal, totalVal, alistFind?]
    by_cases h : n = n' <;> simp [h]
  | cons hd tl ih =>
    obtain ⟨k, v, cnt⟩ := hd
    by_cases hk : k = n
    · subst hk
      simp only [addTotal, if_pos rfl]
      by_cases h : k = n' <;> simp [totalVal_cons, h]
    · simp only [addTotal, if_neg hk, totalVal_cons, ih]
      by_cases h : k = n'
      · subst h
        simp [totalVal_cons, Ne.symm hk]
      · simp [totalVal_cons, h]

theorem totalCnt_addTotal (acc : Totals) (n n' : String) (s : ℚ) (c : Nat) :
    totalCnt (addTotal acc n s c) n' =
      totalCnt acc n' + (if n = n' then c else 0) := by
  induction acc with
  | nil =>
    simp only [addTotal, totalCnt, alistFind?]
    by_cases h : n = n' <;> simp [h]
  | cons hd tl ih =>
    obtain ⟨k, v, cnt⟩ := hd
    by_cases hk : k = n
    · subst hk
      simp only [addTotal, if_pos rfl]
      by_cases h : k = n' <;> simp [totalCnt_cons, h]
    · simp only [addTotal, if_neg hk, totalCnt_cons, ih]
      by_cases h : k = n'
      · subst h
        simp [totalCnt_cons, Ne.symm hk]
      · simp [totalCnt_cons, h]

theorem dsSumFor_cons (q : String × List ℚ) (rest : List (String × List ℚ)) (n : String) :
    dsSumFor (q :: rest) n = (if q.1 = n then q.2.sum else 0) + dsSumFor rest n := by
  simp [dsSumFor]

theorem dsCountFor_cons (q : String × List ℚ) (rest : List (String × List ℚ)) (n : String) :
    dsCountFor (q :: rest) n = (if q.1 = n then q.2.length else 0) + dsCountFor rest n := by
  simp [dsCountFor]

theorem totalVal_accumDataset (ms : List (String × List ℚ)) (acc : Totals) (n : String) :
    totalVal (accumDataset acc ms) n = totalVal acc n + dsSumFor ms n := by
  induction ms generalizing acc with
  | nil => simp [accumDataset, dsSumFor]
  | cons q rest ih =>
    rw [show accumDataset acc (q :: rest) =
        accumDataset (addTotal acc q.1 q.2.sum q.2.length) rest from rfl]
    rw [ih, totalVal_addTotal, dsSumFor_cons]
    ring

theorem totalCnt_accumDataset (ms : List (String × List ℚ)) (acc : Totals) (n : String) :
    totalCnt (accumDataset acc ms) n = totalCnt acc n + dsCountFor ms n := by
  induction ms generalizing acc with
  | nil => simp [accumDataset, dsCountFor]
  | cons q rest ih =>
    rw [show accumDataset acc (q :: rest) =
        accumDataset (addTotal acc q.1 q.2.sum q.2.length) rest from rfl]
    rw [ih, totalCnt_addTotal, dsCountFor_cons]
    omega

theorem metricTotal_cons (p : String × List (String × List ℚ)) (rest : CurrentValMetrics)
    (n : String) : metricTotal (p :: rest) n = dsSumFor p.2 n + metricTotal rest n := by
  simp [metricTotal]

theorem metricCount_cons (p : String × List (String × List ℚ)) (rest : CurrentValMetrics)
    (n : String) : metricCount (p :: rest) n = dsCountFor p.2 n + metricCount rest n := by
  simp [metricCount]

theorem totalVal_epochTotals_aux (m : CurrentValMetrics) (acc : Totals) (n : String) :
    totalVal (m.foldl (fun a p => accumDataset a p.2) acc) n =
      totalVal acc n + metricTotal m n := by
  induction m generalizing acc with
  | nil => simp [metricTotal]
  | cons p rest ih =>
    rw [List.foldl_cons, ih, totalVal_accumDataset, metricTotal_cons]
    ring

theorem totalCnt_epochTotals_aux (m : CurrentValMetrics) (acc : Totals) (n : String) :
    totalCnt (m.foldl (fun a p => accumDataset a p.2) acc) n =
      totalCnt acc n + metricCount m n := by
  induction m generalizing acc with
  | nil => simp [metricCount]
  | cons p rest ih =>
    rw [List.foldl_cons, ih, totalCnt_accumDataset, metricCount_cons]
    omega

theorem totalVal_epochTotals (m : CurrentValMetrics) (n : String) :
    totalVal (epochTotals m) n = metricTotal m n := by
  have h := totalVal_epochTotals_aux m [] n
  simpa [epochTotals, totalVal, alistFind?] using h

theorem totalCnt_epochTotals (m : CurrentValMetrics) (n : String) :
    totalCnt (epochTotals m) n = metricCount m n := by
  have h := totalCnt_epochTotals_aux m [] n
  simpa [epochTotals, totalCnt, alistFind?] using h

theorem alistFind?_map {β γ : Type} (f : β → γ) (l : List (String × β)) (n : String) :
    alistFind? (l.map (fun p => (p.1, f p.2))) n = (alistFind? l n).map f := by
  induction l with
  | nil => simp [alistFind?]
  | cons hd tl ih =>
    by_cases h : hd.1 = n <;> simp [alistFind?, h, ih]

/-- C1: at the end of a validation epoch (`on_validation_epoch_end`), every
dataset's reported per-metric value is the arithmetic mean of that dataset's
accumulated value list, and the reported global value of every metric present
in the accumulator is the sum of all accumulated values across datasets
divided by the total count of accumulated samples (weighted by sample count,
not a mean of per-dataset means). -/
theorem c1_epoch_end_averaging (m : CurrentValMetrics) (ds : String)
    (ms : List (String × List ℚ)) (n : String)
    (hds : (ds, ms) ∈ m) (hn : (alistFind? (epochTotals m) n).isSome) :
    (ds, ms.map (fun q => (q.1, avgValue q.2))) ∈ datasetAverages m ∧
    alistFind? (globalAverages m) n =
      some (metricTotal m n / (metricCount m n : ℚ)) := by
  constructor
  · exact List.mem_map.mpr ⟨(ds, ms), hds, rfl⟩
  · obtain ⟨p, hp⟩ := Option.isSome_iff_exists.mp hn
    have hval : p.1 = metricTotal m n := by
      have := totalVal_epochTotals m n
      rw [totalVal, hp] at this
      exact this
    have hcnt : p.2 = metricCount m n := by
      have := totalCnt_epochTotals m n
      rw [totalCnt, hp] at this
      exact this
    have hmap := alistFind?_map (fun p : ℚ × Nat => p.1 / (p.2 : ℚ)) (epochTotals m) n
    rw [show globalAverages m =
        (epochTotals m).map (fun p => (p.1, p.2.1 / (p.2.2 : ℚ))) from rfl, hmap, hp]
    simp [hval, hcnt]

/-- The worked example from the spec:
`{dsA: {psnr: [10,20]}, dsB: {psnr: [30]}}`. -/
def valMetricsExample : CurrentValMetrics :=
  [("dsA", [("psnr", [10, 20])]), ("dsB", [("psnr", [30])])]

/-- Witness for C1 on the spec's example: per-dataset mean of dsA is 15
and the global mean is (10+20+30)/3 = 20, not (15+30)/2. -/
theorem c1_epoch_end_averaging_witness :
    ("dsA", [("psnr", [(10 : ℚ), 20])]) ∈ valMetricsExample ∧
    (alistFind? (epochTotals valMetricsExample) "psnr").isSome ∧
    ("dsA", [("psnr", avgValue [(10 : ℚ), 20])]) ∈ datasetAverages valMetricsExample ∧
    alistFind? (globalAverages valMetricsExample) "psnr" =
      some (metricTotal valMetricsExample "psnr" /
        (metricCount valMetricsExample "psnr" : ℚ)) ∧
    avgValue [(10 : ℚ), 20] = 15 ∧
    metricTotal valMetricsExample "psnr" /
      (metricCount valMetricsExample "psnr" : ℚ) = 20 := by
  refine ⟨by decide, by decide, ?_, ?_,
    by simp [avgValue]; norm_num,
    by simp [metricTotal, metricCount, dsSumFor, dsCountFor, valMetricsExample]; norm_num⟩
  · exact (c1_epoch_end_averaging valMetricsExample "dsA" [("psnr", [10, 20])] "psnr"
      (by decide) (by decide)).1
  · exact (c1_epoch_end_averaging valMetricsExample "dsA" [("psnr", [10, 20])] "psnr"
      (by decide) (by decide)).2

/-! ### `BaseModel.load_weights` (base_model.py lines 68-119) -/

/-- The four branches of the parameter-key selection chain at
`base_model.py` lines 89-105. -/
inductive LoadBranch
  | configuredKey
  | emaFallback
  | paramsFallback
  | wholeCheckpoint
deriving DecidableEq

/-- The if/elif/elif/else chain of `load_weights` (lines 89-105): try the
configured `param_key`, then `params_ema` (when the configured key differs
from it), then `params` (same condition), else use the entire checkpoint.
`ckptKeys` are the keys of the loaded checkpoint dict. -/
def loadBranch (ckptKeys : List String) (param_key : String) : LoadBranch :=
  if param_key ∈ ckptKeys then .configuredKey
  else if "params_ema" ∈ ckptKeys ∧ param_key ≠ "params_ema" then .emaFallback
  else if "params" ∈ ckptKeys ∧ param_key ≠ "params" then .paramsFallback
  else .wholeCheckpoint

/-- C2: `load_weights` selects the weight sub-mapping by trying, in order,
(a) the configured key when present, (b) `params_ema` when the configured key
differs from it and it exists, (c) `params` under the same condition,
(d) the entire checkpoint otherwise; the four characterisations are mutually
exclusive and exhaustive, so exactly one branch executes. -/
theorem c2_load_weights_key_selection (keys : List String) (pk : String) :
    (loadBranch keys pk = .configuredKey ↔ pk ∈ keys) ∧
    (loadBranch keys pk = .emaFallback ↔
      pk ∉ keys ∧ ("params_ema" ∈ keys ∧ pk ≠ "params_ema")) ∧
    (loadBranch keys pk = .paramsFallback ↔
      pk ∉ keys ∧ ¬("params_ema" ∈ keys ∧ pk ≠ "params_ema") ∧
      ("params" ∈ keys ∧ pk ≠ "params")) ∧
    (loadBranch keys pk = .wholeCheckpoint ↔
      pk ∉ keys ∧ ¬("params_ema" ∈ keys ∧ pk ≠ "params_ema") ∧
      ¬("params" ∈ keys ∧ pk ≠ "params")) := by
  unfold loadBranch
  by_cases h1 : pk ∈ keys <;>
    by_cases h2 : "params_ema" ∈ keys ∧ pk ≠ "params_ema" <;>
      by_cases h3 : "params" ∈ keys ∧ pk ≠ "params" <;>
        simp [h1, h2, h3]

/-- Witness for C2: a checkpoint containing only `params_ema` with requested
key `params` falls back to the `params_ema` branch. -/
theorem c2_load_weights_key_selection_witness :
    loadBranch ["params_ema"] "params" = LoadBranch.emaFallback :=
  (c2_load_weights_key_selection ["params_ema"] "params").2.1.mpr
    ⟨by decide, by decide, by decide⟩

/-! ### Key-prefix stripping in `load_weights` (base_model.py lines 107-115)

Python strings are modelled through their character sequences (`String.data`),
so that `k.startswith(p)` is list-prefix testing and `k[n:]` is `List.drop`. -/

/-- Python `k.startswith(p)`. -/
def startsWithKey (k p : String) : Bool := p.data.isPrefixOf k.data

/-- Python `k[n:]`. -/
def dropChars (k : String) (n : Nat) : String := ⟨k.data.drop n⟩

/-- First loop (lines 108-110): strip the torch.compile prefix
`_orig_mod.` (10 characters) from a key that carries it. -/
def stripOrigMod (k : String) : String :=
  if startsWithKey k "_orig_mod." then dropChars k 10 else k

/-- Second loop (lines 113-115): strip the distributed-wrapper prefix
`module.` (7 characters) from a key that carries it. -/
def stripModule (k : String) : String :=
  if startsWithKey k "module." then dropChars k 7 else k

/-- The per-key transformation applied by the two loops in sequence:
`_orig_mod.` is stripped first, then `module.`. -/
def normalizeLoadKey (k : String) : String := stripModule (stripOrigMod k)

/-- C7: before matching checkpoint keys, `load_weights` strips the
compiled-model prefix `_orig_mod.` and then the distributed-wrapper prefix
`module.` from every key carrying them: any key `_orig_mod.module.` ++ rest
reduces to rest, and keys carrying neither prefix are unchanged. -/
theorem c7_load_weights_prefix_stripping (s k : String)
    (h1 : startsWithKey k "_orig_mod." = false)
    (h2 : startsWithKey k "module." = false) :
    normalizeLoadKey ("_orig_mod.module." ++ s) = s ∧
    normalizeLoadKey k = k := by
  constructor
  · have hdata : ("_orig_mod.module." ++ s).data =
        "_orig_mod.".data ++ ("module.".data ++ s.data) := by
      rw [String.data_append]
      rfl
    have hpre1 : startsWithKey ("_orig_mod.module." ++ s) "_orig_mod." = true := by
      rw [startsWithKey, hdata]
      exact List.isPrefixOf_iff_prefix.mpr (List.prefix_append _ _)
    have hdrop1 : dropChars ("_orig_mod.module." ++ s) 10 = ⟨"module.".data ++ s.data⟩ := by
      rw [dropChars, hdata]
      congr 1
    have hpre2 : startsWithKey ⟨"module.".data ++ s.data⟩ "module." = true :=
      List.isPrefixOf_iff_prefix.mpr (List.prefix_append _ _)
    have hdrop2 : dropChars ⟨"module.".data ++ s.data⟩ 7 = s := by
      rw [dropChars]
      show String.mk (("module.".data ++ s.data).drop 7) = s
      rw [List.drop_left' (by decide)]
    rw [normalizeLoadKey, stripOrigMod, hpre1, if_pos rfl, hdrop1, stripModule,
      hpre2, if_pos rfl, hdrop2]
  · rw [normalizeLoadKey, stripOrigMod, h1, if_neg (by simp), stripModule, h2,
      if_neg (by simp)]

/-- Witness for C7: `_orig_mod.module.foo` reduces to `foo`, and the
prefix-free key `foo` is unchanged. -/
theorem c7_load_weights_prefix_stripping_witness :
    startsWithKey "foo" "_orig_mod." = false ∧
    startsWithKey "foo" "module." = false ∧
    normalizeLoadKey ("_orig_mod.module." ++ "foo") = "foo" ∧
    normalizeLoadKey "foo" = "foo" := by
  refine ⟨by decide, by decide, ?_, ?_⟩
  · exact (c7_load_weights_prefix_stripping "foo" "foo" (by decide) (by decide)).1
  · exact (c7_load_weights_prefix_stripping "foo" "foo" (by decide) (by decide)).2

/-! ### Scheduler dispatch in `configure_optimizers` (base_model.py lines 366-375) -/

/-- The two underlying scheduler algorithms actually constructed. -/
inductive SchedulerAlg
  | multiStepLR
  | cosineAnnealingLR
deriving DecidableEq

/-- The scheduler-type dispatch at `base_model.py` lines 370-375:
`MultiStepLR` and `MultiStepRestartLR` both construct
`torch.optim.lr_scheduler.MultiStepLR`; `CosineAnnealingRestartLR` constructs
`torch.optim.lr_scheduler.CosineAnnealingLR`; anything else raises
`NotImplementedError` naming the offending type. -/
def configureScheduler (scheduler_type : String) : Except String SchedulerAlg :=
  if scheduler_type = "MultiStepLR" ∨ scheduler_type = "MultiStepRestartLR" then
    .ok .multiStepLR
  else if scheduler_type = "CosineAnnealingRestartLR" then
    .ok .cosineAnnealingLR
  else
    .error ("Scheduler " ++ scheduler_type ++ " is not implemented yet.")

/-- C8 counterexample: there are not two distinct configured type-names that
alias the cosine-annealing implementation; only `CosineAnnealingRestartLR`
maps to it. -/
theorem c8_cosine_single_alias_counterexample :
    ¬ ∃ a b : String, a ≠ b ∧ configureScheduler a = .ok .cosineAnnealingLR ∧
      configureScheduler b = .ok .cosineAnnealingLR := by
  rintro ⟨a, b, hab, ha, hb⟩
  have key : ∀ s : String, configureScheduler s = .ok .cosineAnnealingLR →
      s = "CosineAnnealingRestartLR" := by
    intro s hs
    unfold configureScheduler at hs
    split at hs
    · simp at hs
    · split at hs
      · assumption
      · simp at hs
  exact hab ((key a ha).trans (key b hb).symm)

/-- C8 (amended): the scheduler dispatch maps the configured type-name onto
exactly two underlying algorithms, with two distinct names
(`MultiStepLR`, `MultiStepRestartLR`) aliasing step-decay-at-milestones and a
single name (`CosineAnnealingRestartLR`) mapping to cosine-annealing; any
unrecognized type fails with a NotImplemented-class error naming the type. -/
theorem c8_scheduler_dispatch (s : String) :
    (configureScheduler s = .ok .multiStepLR ↔
      s = "MultiStepLR" ∨ s = "MultiStepRestartLR") ∧
    (configureScheduler s = .ok .cosineAnnealingLR ↔
      s = "CosineAnnealingRestartLR") ∧
    (s ≠ "MultiStepLR" → s ≠ "MultiStepRestartLR" → s ≠ "CosineAnnealingRestartLR" →
      configureScheduler s =
        .error ("Scheduler " ++ s ++ " is not implemented yet.")) := by
  by_cases h1 : s = "MultiStepLR" ∨ s = "MultiStepRestartLR"
  · have h2 : s ≠ "CosineAnnealingRestartLR" := by
      rcases h1 with h | h <;> subst h <;> decide
    unfold configureScheduler
    simp [h1, h2]
    tauto
  · by_cases h2 : s = "CosineAnnealingRestartLR"
    · unfold configureScheduler
      simp [h1, h2]
    · unfold configureScheduler
      simp [h1, h2]

/-- Witness for C8: both step-decay aliases, the single cosine name, and a
rejected unrecognized name. -/
theorem c8_scheduler_dispatch_witness :
    configureScheduler "MultiStepRestartLR" = .ok .multiStepLR ∧
    configureScheduler "CosineAnnealingRestartLR" = .ok .cosineAnnealingLR ∧
    configureScheduler "CosineAnnealingLR" =
      .error ("Scheduler " ++ "CosineAnnealingLR" ++ " is not implemented yet.") :=
  ⟨(c8_scheduler_dispatch "MultiStepRestartLR").1.mpr (Or.inr rfl),
   (c8_scheduler_dispatch "CosineAnnealingRestartLR").2.1.mpr rfl,
   (c8_scheduler_dispatch "CosineAnnealingLR").2.2 (by decide) (by decide) (by decide)⟩

/-! ### `build_dataloader` and `worker_init_fn` (data/__init__.py lines 50-105) -/

/-- The value of `rank = os.environ.get('RANK', 0)` (data/__init__.py
line 67) under Python's dynamic typing: `os.environ` maps strings to
strings, so the lookup yields the *int* `0` only when the `RANK` variable is
unset and the environment *string* otherwise. -/
inductive RankValue
  | intZero
  | envStr (s : String)
deriving DecidableEq

/-- The fields of `dataset_opt` that `build_dataloader` reads for the claims
under verification. `use_shuffle` is `none` when the key is absent
(Python `dataset_opt.get('use_shuffle', False)`). -/
structure DatasetOpt where
  phase : String
  batch_size_per_gpu : Nat
  num_worker_per_gpu : Nat
  use_shuffle : Option Bool
deriving DecidableEq

/-- The dataloader arguments assembled by `build_dataloader`.
`workerInit` records the `(num_workers, rank, seed)` triple captured by
`partial(worker_init_fn, ...)`, or `none` when no worker-init function is
installed. `drop_last` defaults to `false` when the key is not passed. -/
structure DataloaderArgs where
  batch_size : Nat
  shuffle : Bool
  num_workers : Nat
  drop_last : Bool
  hasSampler : Bool
  workerInit : Option (Nat × RankValue × Option Nat)
deriving DecidableEq

/-- `build_dataloader` (data/__init__.py lines 50-99). `rank` is the value
of `os.environ.get('RANK', 0)` (line 67), captured as-is by
`partial(worker_init_fn, ...)`; `hasSampler` models `sampler is not None`;
`seed` is the optional seed argument. The `pin_memory`,
`persistent_workers` and prefetch options (lines 88-99) are set identically
on every phase and do not affect the claims, so they are not carried in
`DataloaderArgs`. -/
def build_dataloader (opt : DatasetOpt) (rank : RankValue) (seed : Option Nat)
    (hasSampler : Bool) : Except String DataloaderArgs :=
  if opt.phase = "train" then
    .ok { batch_size := opt.batch_size_per_gpu
          shuffle := !hasSampler
          num_workers := opt.num_worker_per_gpu
          drop_last := true
          hasSampler := hasSampler
          workerInit := some (opt.num_worker_per_gpu, rank, seed) }
  else if opt.phase = "val" ∨ opt.phase = "test" then
    .ok { batch_size := 1
          shuffle := opt.use_shuffle.getD false
          num_workers := 0
          drop_last := false
          hasSampler := false
          workerInit := none }
  else
    .error ("Wrong dataset phase: " ++ opt.phase ++
      ". Supported ones are 'train', 'val' and 'test'.")

/-- `worker_init_fn` (data/__init__.py lines 101-105) under Python's dynamic
typing, evaluating `num_workers * rank + worker_id + seed` left to right.
With the default int rank `0` this is integer arithmetic. With an
environment-string rank, `num_workers * rank` is string repetition and the
following `str + int` raises `TypeError`, so no seed is derived. -/
def worker_init_fn (worker_id num_workers : Nat) (rank : RankValue)
    (seed : Nat) : Except String Nat :=
  match rank with
  | .intZero => .ok (num_workers * 0 + worker_id + seed)
  | .envStr _ => .error "TypeError: can only concatenate str (not \"int\") to str"

/-- C3: `build_dataloader` branches on the phase: `train` uses per-GPU batch
size and worker count, shuffles exactly when no external sampler is supplied,
and drops the last incomplete batch; `val`/`test` uses batch size 1, zero
workers, the optional shuffle flag defaulting to false, and keeps all
batches; any other phase raises a ValueError whose message contains the
offending phase string. -/
theorem c3_build_dataloader_phases (opt : DatasetOpt) (rank : RankValue)
    (seed : Option Nat) (hasSampler : Bool) :
    (opt.phase = "train" →
      ∃ args, build_dataloader opt rank seed hasSampler = .ok args ∧
        args.batch_size = opt.batch_size_per_gpu ∧
        args.num_workers = opt.num_worker_per_gpu ∧
        (args.shuffle = true ↔ hasSampler = false) ∧
        args.drop_last = true) ∧
    (opt.phase = "val" ∨ opt.phase = "test" →
      ∃ args, build_dataloader opt rank seed hasSampler = .ok args ∧
        args.batch_size = 1 ∧
        args.num_workers = 0 ∧
        args.shuffle = opt.use_shuffle.getD false ∧
        args.drop_last = false) ∧
    (opt.phase ≠ "train" → opt.phase ≠ "val" → opt.phase ≠ "test" →
      ∃ msg, build_dataloader opt rank seed hasSampler = .error msg ∧
        opt.phase.data <:+: msg.data) := by
  refine ⟨?_, ?_, ?_⟩
  · intro h
    rw [build_dataloader, if_pos h]
    exact ⟨_, rfl, rfl, rfl, by cases hasSampler <;> simp, rfl⟩
  · intro h
    have hne : opt.phase ≠ "train" := by
      rcases h with h | h <;> rw [h] <;> decide
    rw [build_dataloader, if_neg (by simpa using hne), if_pos h]
    exact ⟨_, rfl, rfl, rfl, rfl, rfl⟩
  · intro h1 h2 h3
    rw [build_dataloader, if_neg (by simpa using h1),
      if_neg (by simp [h2, h3])]
    refine ⟨_, rfl, ?_⟩
    rw [String.data_append, String.data_append]
    exact ⟨"Wrong dataset phase: ".data,
      ". Supported ones are 'train', 'val' and 'test'.".data, by simp⟩

/-- Witness for C3: a train configuration with a sampler, a val configuration,
and a rejected phase string `predict`. -/
theorem c3_build_dataloader_phases_witness :
    (∃ args, build_dataloader ⟨"train", 4, 2, none⟩ .intZero (some 7) false = .ok args ∧
      args.batch_size = 4 ∧ args.num_workers = 2 ∧
      (args.shuffle = true ↔ (false : Bool) = false) ∧ args.drop_last = true) ∧
    (∃ args, build_dataloader ⟨"val", 4, 2, none⟩ .intZero none false = .ok args ∧
      args.batch_size = 1 ∧ args.num_workers = 0 ∧
      args.shuffle = (none : Option Bool).getD false ∧ args.drop_last = false) ∧
    (∃ msg, build_dataloader ⟨"predict", 4, 2, none⟩ .intZero none false = .error msg ∧
      ("predict" : String).data <:+: msg.data) := by
  refine ⟨?_, ?_, ?_⟩
  · have h := (c3_build_dataloader_phases ⟨"train", 4, 2, none⟩ .intZero (some 7) false).1 rfl
    simpa using h
  · have h := (c3_build_dataloader_phases ⟨"val", 4, 2, none⟩ .intZero none false).2.1
      (Or.inl rfl)
    simpa using h
  · have h := (c3_build_dataloader_phases ⟨"predict", 4, 2, none⟩ .intZero none false).2.2
      (by decide) (by decide) (by decide)
    simpa using h

/-- C4: the training-phase loader captures `(num_workers, rank, seed)` for
`worker_init_fn`, but the seed derivation
`num_workers * rank + worker_id + seed` only executes as integer arithmetic
when the `RANK` environment variable is unset (rank is the int 0, giving
worker seeds `num_workers*0 + worker_id + seed`: 7 and 8 for the spec's
scenario `num_workers=2, seed=7`); whenever `RANK` is set, `rank` is the
environment string, `num_workers * rank` is string repetition, and the next
`+ worker_id` raises a TypeError instead of deriving any seed — contradicting
the code's own comment at data/__init__.py line 102 and the claimed formula
for every non-default rank. -/
theorem c4_rank_string_type_error :
    (∃ args, build_dataloader ⟨"train", 4, 2, none⟩ (.envStr "1") (some 7) false =
        .ok args ∧ args.workerInit = some (2, .envStr "1", some 7)) ∧
    worker_init_fn 0 2 (.envStr "1") 7 =
      .error "TypeError: can only concatenate str (not \"int\") to str" ∧
    worker_init_fn 0 2 .intZero 7 = .ok 7 ∧
    worker_init_fn 1 2 .intZero 7 = .ok 8 :=
  ⟨⟨_, rfl, rfl⟩, rfl, rfl, rfl⟩

/-! ### `BaseModel.validation_step` (base_model.py lines 178-270) -/

/-- Python dict lookup over `self.val_dataset_names : dict[int, str]`. -/
def natFind? {β : Type} : List (Nat × β) → Nat → Option β
  | [], _ => none
  | (k, v) :: rest, n => if k = n then some v else natFind? rest n

/-- The dict a validation step returns: either the tagged error mapping
`{'error': 'Missing required key: ...'}` (returned, not raised) or the
normal output mapping carrying the dataset name. -/
inductive StepResult
  | errorResult (msg : String)
  | output (dataset_name : String)
deriving DecidableEq

/-- Append one value under the metric name inside one dataset's metric dict
(the `if name not in ...: = []` then `.append` at lines 259-261). -/
def appendVal : List (String × List ℚ) → String → ℚ → List (String × List ℚ)
  | [], n, v => [(n, [v])]
  | (k, vs) :: rest, n, v =>
    if k = n then (k, vs ++ [v]) :: rest else (k, vs) :: appendVal rest n v

/-- Append one metric value under `(dataset_name, metric_name)` in
`self.current_val_metrics` (lines 257-261): a fresh dataset entry or metric
entry is created when absent, then the value is appended. -/
def appendMetric : CurrentValMetrics → String → String → ℚ → CurrentValMetrics
  | [], ds, n, v => [(ds, [(n, [v])])]
  | (d, ms) :: rest, ds, n, v =>
    if d = ds then (d, appendVal ms n v) :: rest
    else (d, ms) :: appendMetric rest ds n v

/-- The metrics loop of `validation_step` (lines 251-263): each configured
metric's outcome is `some v` when `calculate_metric` returns `v` and `none`
when it raises; a raising metric is skipped, the others are appended. -/
def recordMetrics (m : CurrentValMetrics) (ds : String)
    (outcomes : List (String × Option ℚ)) : CurrentValMetrics :=
  outcomes.foldl
    (fun acc p =>
      match p.2 with
      | some v => appendMetric acc ds p.1 v
      | none => acc)
    m

/-- The warnings the metrics loop emits, one per raising metric (line 263). -/
def metricWarnings (outcomes : List (String × Option ℚ)) : List String :=
  outcomes.filterMap
    (fun p =>
      match p.2 with
      | some _ => none
      | none => some ("Error calculating metric '" ++ p.1 ++ "'"))

/-- `validation_step` (lines 178-270) restricted to the state the claims
concern. A raised Python exception is `Except.error`; the middle component of
a normal return collects the warnings emitted. `hasInput` / `hasTargetT` say
whether the batch dict contains the `input` / `target_t` keys;
`metricsConfigured` models `self.opt['val'].get('metrics') is not None`;
`outcomes` gives each configured metric's result on this batch's
`{'img': clean, 'img2': target}` data. The image-saving block
(lines 221-247) is wrapped in its own try/except and does not touch the
metric state, so it is omitted. -/
def validation_step (val_dataset_names : List (Nat × String))
    (m : CurrentValMetrics) (dataloader_idx : Nat)
    (hasInput hasTargetT metricsConfigured : Bool)
    (outcomes : List (String × Option ℚ)) :
    Except String (CurrentValMetrics × List String × StepResult) :=
  match natFind? val_dataset_names dataloader_idx with
  | none => .error ("KeyError: " ++ toString dataloader_idx)
  | some dataset_name =>
    if hasInput = false then
      .ok (m, ["Required key 'input' missing from batch during validation"],
        .errorResult "Missing required key: input")
    else if hasTargetT = false then
      .error "KeyError: 'target_t'"
    else if metricsConfigured then
      .ok (recordMetrics m dataset_name outcomes, metricWarnings outcomes,
        .output dataset_name)
    else
      .ok (m, [], .output dataset_name)

/-- The accumulated value list under `(dataset, metric)`, empty when absent. -/
def valuesAt (m : CurrentValMetrics) (ds n : String) : List ℚ :=
  (alistFind? ((alistFind? m ds).getD []) n).getD []

theorem alistFind?_appendVal (ms : List (String × List ℚ)) (n n' : String) (v : ℚ) :
    alistFind? (appendVal ms n v) n' =
      if n' = n then some (((alistFind? ms n).getD []) ++ [v])
      else alistFind? ms n' := by
  induction ms with
  | nil =>
    simp only [appendVal, alistFind?]
    by_cases h : n = n'
    · subst h; simp
    · simp [h, Ne.symm h]
  | cons hd tl ih =>
    obtain ⟨k, vs⟩ := hd
    by_cases hk : k = n
    · subst hk
      simp only [appendVal, if_pos rfl, alistFind?]
      by_cases h : k = n' <;> simp [h, Ne.symm]
    · simp only [appendVal, if_neg hk, alistFind?]
      by_cases h : k = n'
      · subst h
        simp [Ne.symm hk, hk]
      · simp [h, ih, hk]

theorem alistFind?_appendMetric (m : CurrentValMetrics) (ds ds' n : String) (v : ℚ) :
    alistFind? (appendMetric m ds n v) ds' =
      if ds' = ds then some (appendVal ((alistFind? m ds).getD []) n v)
      else alistFind? m ds' := by
  induction m with
  | nil =>
    simp only [appendMetric, alistFind?]
    by_cases h : ds = ds'
    · subst h; simp [appendVal]
    · simp [h, Ne.symm h]
  | cons hd tl ih =>
    obtain ⟨d, ms⟩ := hd
    by_cases hd' : d = ds
    · subst hd'
      simp only [appendMetric, if_pos rfl, alistFind?]
      by_cases h : d = ds' <;> simp [h, Ne.symm]
    · simp only [appendMetric, if_neg hd', alistFind?]
      by_cases h : d = ds'
      · subst h
        simp [Ne.symm hd', hd']
      · simp [h, ih, hd']

theorem valuesAt_appendMetric (m : CurrentValMetrics) (ds ds' n n' : String) (v : ℚ) :
    valuesAt (appendMetric m ds n v) ds' n' =
      if ds' = ds ∧ n' = n then valuesAt m ds' n' ++ [v]
      else valuesAt m ds' n' := by
  rw [valuesAt, alistFind?_appendMetric]
  by_cases hds : ds' = ds
  · rw [if_pos hds, Option.getD_some, alistFind?_appendVal]
    subst hds
    by_cases hn : n' = n
    · subst hn
      rw [if_pos rfl, if_pos ⟨rfl, rfl⟩, Option.getD_some, valuesAt]
    · rw [if_neg hn, if_neg (by tauto), valuesAt]
  · rw [if_neg hds, if_neg (by tauto), valuesAt]

theorem valuesAt_recordMetrics (outcomes : List (String × Option ℚ))
    (m : CurrentValMetrics) (ds n : String) :
    valuesAt (recordMetrics m ds outcomes) ds n =
      valuesAt m ds n ++
        outcomes.filterMap (fun p => if p.1 = n then p.2 else none) := by
  induction outcomes generalizing m with
  | nil => simp [recordMetrics]
  | cons p rest ih =>
    obtain ⟨pn, pv⟩ := p
    cases pv with
    | none =>
      rw [show recordMetrics m ds ((pn, none) :: rest) =
          recordMetrics m ds rest from rfl, ih]
      have : (((pn, (none : Option ℚ)) :: rest).filterMap
          (fun p => if p.1 = n then p.2 else none)) =
          rest.filterMap (fun p => if p.1 = n then p.2 else none) := by
        simp only [List.filterMap_cons]
        by_cases h : pn = n <;> simp [h]
      rw [this]
    | some v =>
      rw [show recordMetrics m ds ((pn, some v) :: rest) =
          recordMetrics (appendMetric m ds pn v) ds rest from rfl, ih,
        valuesAt_appendMetric]
      by_cases h : pn = n
      · subst h
        simp [List.filterMap_cons]
      · simp [h, List.filterMap_cons, Ne.symm h]

/-- C5: a validation batch lacking the `input` field makes `validation_step`
return the tagged error mapping `{'error': 'Missing required key: input'}`
with a warning instead of raising, leaving the accumulator untouched —
provided the dataset-name mapping knows the dataloader index. -/
theorem c5_missing_input_returns_tagged_error (names : List (Nat × String))
    (m : CurrentValMetrics) (idx : Nat) (ds : String)
    (hasTargetT metricsConfigured : Bool) (outcomes : List (String × Option ℚ))
    (hname : natFind? names idx = some ds) :
    validation_step names m idx false hasTargetT metricsConfigured outcomes =
      .ok (m, ["Required key 'input' missing from batch during validation"],
        .errorResult "Missing required key: input") := by
  rw [validation_step, hname]
  rfl

/-- Witness for C5: a concrete step with a missing `input` key returns the
tagged error result without raising. -/
theorem c5_missing_input_returns_tagged_error_witness :
    natFind? [(0, "dsA")] 0 = some "dsA" ∧
    validation_step [(0, "dsA")] [] 0 false true true [("psnr", some 1)] =
      .ok ([], ["Required key 'input' missing from batch during validation"],
        .errorResult "Missing required key: input") :=
  ⟨by decide,
   c5_missing_input_returns_tagged_error [(0, "dsA")] [] 0 "dsA" true true
     [("psnr", some 1)] (by decide)⟩

/-- C6: within one validation step whose batch has `input` and `target_t`,
every metric whose computation succeeds is appended to the accumulator under
`(dataset_name, metric_name)`, and a metric whose computation raises is
skipped with a warning without preventing the remaining metrics from being
recorded: the final values under any metric name `n` are the previous ones
followed by all successful outcomes for `n`, in order, whatever the other
entries did. -/
theorem c6_metric_error_isolation (names : List (Nat × String))
    (m : CurrentValMetrics) (idx : Nat) (ds n : String)
    (outcomes : List (String × Option ℚ))
    (hname : natFind? names idx = some ds) :
    validation_step names m idx true true true outcomes =
      .ok (recordMetrics m ds outcomes, metricWarnings outcomes, .output ds) ∧
    valuesAt (recordMetrics m ds outcomes) ds n =
      valuesAt m ds n ++
        outcomes.filterMap (fun p => if p.1 = n then p.2 else none) ∧
    (∀ p ∈ outcomes, p.2 = none →
      ("Error calculating metric '" ++ p.1 ++ "'") ∈ metricWarnings outcomes) := by
  refine ⟨?_, valuesAt_recordMetrics outcomes m ds n, ?_⟩
  · rw [validation_step, hname]
    rfl
  · intro p hp hnone
    rw [metricWarnings]
    exact List.mem_filterMap.mpr ⟨p, hp, by rw [hnone]⟩

/-- Witness for C6: with outcomes psnr = 1, ssim raising, lpips = 2, the
ssim failure is warned about and lpips is still recorded. -/
theorem c6_metric_error_isolation_witness :
    natFind? [(0, "dsA")] 0 = some "dsA" ∧
    validation_step [(0, "dsA")] [] 0 true true true
        [("psnr", some 1), ("ssim", none), ("lpips", some 2)] =
      .ok (recordMetrics [] "dsA"
          [("psnr", some 1), ("ssim", none), ("lpips", some 2)],
        metricWarnings [("psnr", some 1), ("ssim", none), ("lpips", some 2)],
        .output "dsA") ∧
    valuesAt (recordMetrics [] "dsA"
        [("psnr", some 1), ("ssim", none), ("lpips", some 2)]) "dsA" "lpips" =
      [(2 : ℚ)] ∧
    ("Error calculating metric '" ++ "ssim" ++ "'") ∈
      metricWarnings [("psnr", some 1), ("ssim", none), ("lpips", some 2)] := by
  have h := c6_metric_error_isolation [(0, "dsA")] [] 0 "dsA" "lpips"
    [("psnr", some 1), ("ssim", none), ("lpips", some 2)] (by decide)
  refine ⟨by decide, h.1, ?_, ?_⟩
  · rw [h.2.1]
    decide
  · exact h.2.2 ("ssim", none) (by decide) rfl

/-- C10: `validation_step` reads the dataset name for `dataloader_idx` from
`self.val_dataset_names` before the required-`input` check, so an index
absent from that mapping raises a KeyError — even for a batch missing
`input`, which would otherwise get the tagged skip result. -/
theorem c10_missing_mapping_raises (names : List (Nat × String))
    (m : CurrentValMetrics) (idx : Nat)
    (hasInput hasTargetT metricsConfigured : Bool)
    (outcomes : List (String × Option ℚ))
    (hnone : natFind? names idx = none) :
    validation_step names m idx hasInput hasTargetT metricsConfigured outcomes =
      .error ("KeyError: " ++ toString idx) := by
  rw [validation_step, hnone]

/-- Witness for C10: an empty mapping makes the step raise even though the
batch also lacks `input`. -/
theorem c10_missing_mapping_raises_witness :
    natFind? ([] : List (Nat × String)) 0 = none ∧
    validation_step [] [] 0 false true true [] =
      .error ("KeyError: " ++ toString 0) :=
  ⟨by decide, c10_missing_mapping_raises [] [] 0 false true true [] (by decide)⟩

/-! ### `BaseModel.on_validation_epoch_start` (base_model.py lines 272-292) -/

/-- What the hook reads from one validation loader: `loader.dataset.opt['name']`
when the dataset has an `opt` dict with a `name` key, `none` otherwise. -/
structure LoaderInfo where
  optName : Option String
deriving DecidableEq

/-- `self.trainer.val_dataloaders`: either a list of loaders or a single
loader (the `isinstance(..., list)` branch at line 278). -/
inductive ValDataloaders
  | multiple (ls : List LoaderInfo)
  | single (l : LoaderInfo)
deriving DecidableEq

/-- Python dict assignment `d[k] = v` over `self.val_dataset_names`:
update in place when the key exists, append otherwise. -/
def natSet (d : List (Nat × String)) (k : Nat) (v : String) : List (Nat × String) :=
  match d with
  | [] => [(k, v)]
  | (k', v') :: rest =>
    if k' = k then (k', v) :: rest else (k', v') :: natSet rest k v

/-- The name assigned for loader index `idx` in the list branch
(lines 280-284): the dataset's configured name, or the fallback `val_{idx}`. -/
def loaderName (idx : Nat) (l : LoaderInfo) : String :=
  l.optName.getD ("val_" ++ toString idx)

/-- The `for idx, loader in enumerate(...)` loop (lines 279-284), assigning
`self.val_dataset_names[idx] = dataset_name` in order starting at `idx`. -/
def assignNames (prev : List (Nat × String)) (idx : Nat) :
    List LoaderInfo → List (Nat × String)
  | [] => prev
  | l :: rest => assignNames (natSet prev idx (loaderName idx l)) (idx + 1) rest

/-- `on_validation_epoch_start` (lines 272-292): resets
`self.current_val_metrics` to `{}` and, when the trainer exposes validation
loaders (`loaders ≠ none`), assigns into the existing `self.val_dataset_names`
dict — it does not clear it. The single-loader branch (lines 285-292) uses
index 0 and fallback name `val`. -/
def on_validation_epoch_start (prev : List (Nat × String))
    (loaders : Option ValDataloaders) :
    CurrentValMetrics × List (Nat × String) :=
  match loaders with
  | none => ([], prev)
  | some (.multiple ls) => ([], assignNames prev 0 ls)
  | some (.single l) => ([], natSet prev 0 (l.optName.getD "val"))

theorem natFind?_natSet (d : List (Nat × String)) (k k' : Nat) (v : String) :
    natFind? (natSet d k v) k' = if k' = k then some v else natFind? d k' := by
  induction d with
  | nil =>
    simp only [natSet, natFind?]
    by_cases h : k = k'
    · subst h; simp
    · simp [h, Ne.symm h]
  | cons hd tl ih =>
    obtain ⟨j, w⟩ := hd
    by_cases hj : j = k
    · subst hj
      simp only [natSet, if_pos rfl, natFind?]
      by_cases h : j = k' <;> simp [h, Ne.symm]
    · simp only [natSet, if_neg hj, natFind?]
      by_cases h : j = k'
      · subst h
        simp [Ne.symm hj, hj]
      · simp [h, ih, hj]

theorem natFind?_assignNames_below (ls : List LoaderInfo)
    (prev : List (Nat × String)) (s j : Nat) (hj : j < s) :
    natFind? (assignNames prev s ls) j = natFind? prev j := by
  induction ls generalizing prev s with
  | nil => rfl
  | cons l rest ih =>
    rw [assignNames, ih _ _ (Nat.lt_succ_of_lt hj), natFind?_natSet,
      if_neg (Nat.ne_of_lt hj)]

theorem natFind?_assignNames_above (ls : List LoaderInfo)
    (prev : List (Nat × String)) (s j : Nat) (hj : s + ls.length ≤ j) :
    natFind? (assignNames prev s ls) j = natFind? prev j := by
  induction ls generalizing prev s with
  | nil => rfl
  | cons l rest ih =>
    rw [assignNames, ih _ (s + 1) (by simp at hj ⊢; omega), natFind?_natSet,
      if_neg (by simp at hj; omega)]

theorem natFind?_assignNames_in (ls : List LoaderInfo)
    (prev : List (Nat × String)) (s k : Nat) (hk : k < ls.length) :
    natFind? (assignNames prev s ls) (s + k) =
      some (loaderName (s + k) (ls.getD k ⟨none⟩)) := by
  induction ls generalizing prev s k with
  | nil => exact absurd hk (by simp)
  | cons l rest ih =>
    cases k with
    | zero =>
      show natFind? (assignNames (natSet prev s (loaderName s l)) (s + 1) rest) s =
        some (loaderName s ((l :: rest).getD 0 ⟨none⟩))
      rw [natFind?_assignNames_below rest _ (s + 1) s (Nat.lt_succ_self s),
        natFind?_natSet, if_pos rfl]
      rfl
    | succ k' =>
      have hk' : k' < rest.length := by simpa using hk
      have := ih (natSet prev s (loaderName s l)) (s + 1) k' hk'
      rw [assignNames]
      rw [show s + (k' + 1) = (s + 1) + k' by omega, this]
      rfl

/-- C9 counterexample: with a previous-epoch mapping `{0: a, 1: b}` and a
single active loader (named `c`) in the list branch, the hook leaves the
stale entry `1 ↦ b` in place, so the mapping's entries do not correspond
exactly to the active loaders. -/
theorem c9_stale_mapping_counterexample :
    on_validation_epoch_start [(0, "a"), (1, "b")]
        (some (.multiple [⟨some "c"⟩])) =
      ([], [(0, "c"), (1, "b")]) ∧
    natFind? (on_validation_epoch_start [(0, "a"), (1, "b")]
        (some (.multiple [⟨some "c"⟩]))).2 1 = some "b" ∧
    List.length [(⟨some "c"⟩ : LoaderInfo)] ≤ 1 := by
  refine ⟨?_, ?_, by decide⟩ <;> rfl

/-- C9 (amended): at validation-epoch start the metric accumulator is reset
to empty and, for every active loader index, the mapping entry is set to the
loader's configured dataset name or the `val_{idx}` fallback; however the
mapping is updated in place, not rebuilt: entries at indices beyond the
active loader count persist from earlier epochs. (The mapping is only read,
never written, during the epoch's validation steps.) -/
theorem c9_epoch_start_mapping (prev : List (Nat × String))
    (ls : List LoaderInfo) (k j : Nat) (hk : k < ls.length)
    (hj : ls.length ≤ j) :
    (on_validation_epoch_start prev (some (.multiple ls))).1 = [] ∧
    natFind? (on_validation_epoch_start prev (some (.multiple ls))).2 k =
      some (loaderName k (ls.getD k ⟨none⟩)) ∧
    natFind? (on_validation_epoch_start prev (some (.multiple ls))).2 j =
      natFind? prev j := by
  refine ⟨rfl, ?_, ?_⟩
  · have := natFind?_assignNames_in ls prev 0 k hk
    simpa using this
  · exact natFind?_assignNames_above ls prev 0 j (by simpa using hj)

/-- Witness for C9 (amended): two active loaders, the second unnamed, give
entries `dsA` and the fallback `val_1`; index 2 stays as in the previous
mapping (absent here). -/
theorem c9_epoch_start_mapping_witness :
    1 < List.length [(⟨some "dsA"⟩ : LoaderInfo), ⟨none⟩] ∧
    (on_validation_epoch_start [] (some (.multiple [⟨some "dsA"⟩, ⟨none⟩]))).1 = [] ∧
    natFind? (on_validation_epoch_start []
        (some (.multiple [⟨some "dsA"⟩, ⟨none⟩]))).2 1 =
      some (loaderName 1 (([⟨some "dsA"⟩, ⟨none⟩] : List LoaderInfo).getD 1 ⟨none⟩)) ∧
    natFind? (on_validation_epoch_start []
        (some (.multiple [⟨some "dsA"⟩, ⟨none⟩]))).2 2 =
      natFind? ([] : List (Nat × String)) 2 := by
  have h := c9_epoch_start_mapping [] [⟨some "dsA"⟩, ⟨none⟩] 1 2
    (by decide) (by decide)
  exact ⟨by decide, h.1, h.2.1, h.2.2⟩

end XReflection
